import Mathlib

/-!
Shallow embedding of the convective-adjustment core (`konrad/convection.py`)
and the humidity policies (`konrad/humidity/__init__.py`) of the konrad
single-column climate model, together with proofs of the specified
properties.

Modelling conventions:
* Python/numpy floating-point numbers are modelled as exact rationals (ℚ);
  numpy 1-d arrays are modelled as `List ℚ`.  All array operations assume the
  shape discipline stated in the spec (temperature, lapse and pressure arrays
  share one length `n`; half-level pressures have length `n + 1`); numpy
  raises on mismatched shapes, which the claims never exercise.
* External collaborators that are out of scope per the spec (the
  `typhon.physics.density` call, the `scipy.interpolate.interp1d`
  density regridding, and `np.exp`) are parametrized out: the lapse rate is
  taken directly in K/Pa (`lp`), and the exponential is an explicit function
  argument `expFn`.  Every behaviour of the source is an instance of the
  parametrized definitions.
* Fallible code (the `raise ValueError` on the iteration cap, the
  out-of-range error of `interp1d`, the `NameError` in `ChangeRHwithp`)
  returns `Except String`.
-/

namespace Konrad

/-! ## numpy-style list helpers -/

/-- numpy `np.cumsum`: running sums of a list, same length as the input. -/
def cumsum (l : List ℚ) : List ℚ := (l.scanl (· + ·) 0).tail

/-- numpy `np.diff`: adjacent differences `l[i+1] - l[i]`, length one less. -/
def npDiff (l : List ℚ) : List ℚ := List.zipWith (fun a b => b - a) l l.tail

/-- numpy `np.min` of a nonempty array (the empty case, on which numpy raises,
defaults to 0 and is never reached by the claims). -/
def npMin (l : List ℚ) : ℚ :=
  match l with
  | [] => 0
  | x :: xs => xs.foldl min x

/-- numpy `np.argmax` of a boolean array: index of the first `true`, or 0 when all
entries are `false` (numpy's behaviour on nonempty arrays). -/
def npArgmax (l : List Bool) : ℕ :=
  match l.findIdx? (fun b => b) with
  | some i => i
  | none => 0

/-- Python list/array indexing with wrap-around for negative indices
(`a[-1]` is the last element).  Out-of-range accesses, on which Python
raises, default to 0 and are never reached by the claims. -/
def pyGet (l : List ℚ) (i : ℤ) : ℚ :=
  if i < 0 then l.getD (l.length - (-i).toNat) 0 else l.getD i.toNat 0

/-- largest index `i < n` with `p i` (the value of
`np.max(np.where(p))` over the index range `[0, n)`), or `none` when no
index satisfies `p`. -/
def lastSuch : ℕ → (ℕ → Bool) → Option ℕ
  | 0, _ => none
  | n + 1, p => if p n then some n else lastSuch n p

/-- three-way `zipWith`, used for the per-level blend of the relaxed scheme. -/
def zipWith3 (f : ℚ → ℚ → ℚ → ℚ) : List ℚ → List ℚ → List ℚ → List ℚ
  | a :: as, b :: bs, c :: cs => f a b c :: zipWith3 f as bs cs
  | _, _, _ => []

/-! ## External constants and conversions

`konrad.constants` and `konrad.physics` are repository modules that are not
part of the excerpt; they are modelled from the spec. -/

/-- Modelled from the spec: `constants.isobaric_mass_heat_capacity`, the fixed
physical constant `Cp` (1003.5 J kg⁻¹ K⁻¹); `konrad/constants.py` is not in
`src/`.  No claim depends on the numeric value. -/
def isobaric_mass_heat_capacity : ℚ := 2007 / 2

/-- Modelled from the spec: `constants.g` / `constants.earth_standard_gravity`,
the fixed gravitational acceleration (9.80665 m s⁻²); `konrad/constants.py`
is not in `src/`.  No claim depends on the numeric value. -/
def earth_standard_gravity : ℚ := 980665 / 100000

/-- Modelled from the spec: `konrad.physics.integrate_vmr(vmr, p)`, the
"vertical integral of water-vapor mixing ratio weighted by pressure
thickness" (`konrad/physics.py` is not in `src/`): the sum of the mixing
ratio times the pressure thickness of each layer.  The claims depend only on
this being a pressure-weighted vertical integral, i.e. linear in `vmr`. -/
def integrate_vmr (vmr : List ℚ) (plev : List ℚ) : ℚ :=
  (List.zipWith (· * ·) vmr (npDiff plev)).sum

/-! ## Surface model

`konrad.surface` is an external collaborator: a surface carries a scalar
temperature, and either is a `SurfaceFixedTemperature` (no heat capacity —
accessing it raises `KeyError`) or has an effective heat capacity. -/

/-- A konrad surface: a fixed-temperature surface, or a surface with an
effective heat capacity. -/
inductive Surface where
  | fixedT (temperature : ℚ)
  | variableT (temperature : ℚ) (heat_capacity : ℚ)

/-- Accessor `surface['temperature']`. -/
def Surface.temperature : Surface → ℚ
  | .fixedT t => t
  | .variableT t _ => t

/-- Accessor `surface.heat_capacity`; only accessed by the source after ruling out the
fixed-temperature case (where the access would raise). -/
def Surface.heat_capacity : Surface → ℚ
  | .fixedT _ => 0
  | .variableT _ c => c

/-! ## `konrad/convection.py`: module-level functions -/

/-- Function `energy_difference(T_2, T_1, sst_2, sst_1, dp, eff_Cp_s)`
(convection.py:25-46): the energy difference between two atmospheric
profiles (2 - 1), `termdiff = -Σ Cp/g·(T_2 - T_1)·dp + eff_Cp_s·(sst_2 - sst_1)`
(written below with the summands exchanged, `a + (-b) = a - b`, so that the
term parses on one line). -/
def energy_difference (T_2 T_1 : List ℚ) (sst_2 sst_1 : ℚ) (dp : List ℚ)
    (eff_Cp_s : ℚ) : ℚ :=
  let Cp := isobaric_mass_heat_capacity
  let grav := earth_standard_gravity
  let dT := List.zipWith (fun a b => a - b) T_2 T_1
  let atmosTerm := (List.zipWith (fun t d => Cp / grav * t * d) dT dp).sum
  eff_Cp_s * (sst_2 - sst_1) - atmosTerm

/-- Function `energy_threshold(surface)` (convection.py:49-64): the convergence
threshold, `heat_capacity / 1e13`, falling back to `1e-8` when the
heat capacity is undefined (the `KeyError` branch taken exactly for
fixed-temperature surfaces). -/
def energy_threshold (surface : Surface) : ℚ :=
  match surface with
  | .fixedT _ => 1 / 10 ^ 8
  | .variableT _ cs => cs / 10 ^ 13

/-- Linear interpolation through the two points `(x0, y0)`, `(x1, y1)`
evaluated at `x`: models `scipy.interpolate.interp1d([x0, x1], [y0, y1])(x)`
with scipy's defaults — the abscissas are sorted first
(`assume_sorted=False`) and a query outside their range is an error
(`bounds_error=True`).  scipy is an out-of-scope external collaborator;
this is its documented behaviour on two points. -/
def interp1d_eval (x0 x1 y0 y1 x : ℚ) : Except String ℚ :=
  let a := if x0 ≤ x1 then x0 else x1
  let ya := if x0 ≤ x1 then y0 else y1
  let b := if x0 ≤ x1 then x1 else x0
  let yb := if x0 ≤ x1 then y1 else y0
  if x < a ∨ b < x then Except.error "ValueError: x_new value out of interpolation range"
  else Except.ok (ya + (x - a) * (yb - ya) / (b - a))

/-- The bracketing index computed inside `interp_variable`
(convection.py:79-81): `positive_i = np.argmax(convective_heating > lim)`,
then `contop_index = np.argmax(convective_heating[positive_i:] < lim)
+ positive_i`. -/
def contopIndex (convective_heating : List ℚ) (lim : ℚ) : ℕ :=
  let positive_i := npArgmax (convective_heating.map (fun x => decide (lim < x)))
  npArgmax ((convective_heating.drop positive_i).map (fun x => decide (x < lim)))
    + positive_i

/-- Function `interp_variable(variable, convective_heating, lim)`
(convection.py:67-91): interpolate `variable` to the level where the
convective heating equals `lim`, reading the pair of values at
`contop_index - 1` and `contop_index` (Python indexing: index `-1` wraps to
the last element).  The source's first parameter is called `variable`, a
reserved word in Lean; it is `var` here. -/
def interp_variable (var convective_heating : List ℚ) (lim : ℚ) :
    Except String ℚ :=
  let contop_index := contopIndex convective_heating lim
  interp1d_eval
    (pyGet convective_heating ((contop_index : ℤ) - 1))
    (pyGet convective_heating (contop_index : ℤ))
    (pyGet var ((contop_index : ℤ) - 1))
    (pyGet var (contop_index : ℤ))
    lim

/-- Guard `np.any(convective_heating > lim)` of of
`calculate_convective_top` (convection.py:287). -/
def npAnyGt (l : List ℚ) (lim : ℚ) : Bool :=
  l.any (fun x => decide (lim < x))

/-! ## `HardAdjustment` -/

/-- Array `dp_lapse` of `test_profile` (convection.py:248): pressure thicknesses
for the lapse-rate integral, `np.hstack((p[0] - phlev[0], np.diff(p)))`. -/
def dpLapse (p phlev : List ℚ) : List ℚ :=
  (p.headD 0 - phlev.headD 0) :: npDiff p

/-- The full adiabat built downward from the trial surface temperature
(convection.py:249): `T_con = surfaceT - np.cumsum(dp_lapse * lp)`. -/
def hardAdiabat (p phlev : List ℚ) (surfaceT : ℚ) (lp : List ℚ) : List ℚ :=
  (cumsum (List.zipWith (· * ·) (dpLapse p phlev) lp)).map
    (fun c => surfaceT - c)

/-- The candidate profile of `HardAdjustment.test_profile`
(convection.py:249-254): the adiabat where it is warmer than the radiative
profile, up to and including the highest such level (`contop`), and the
radiative profile elsewhere; the radiative profile unchanged when the
adiabat nowhere exceeds it. -/
def hardCandidate (T_rad p phlev : List ℚ) (surfaceT : ℚ) (lp : List ℚ) :
    List ℚ :=
  let T_con := hardAdiabat p phlev surfaceT lp
  let n := min T_con.length T_rad.length
  match lastSuch n (fun i => decide (T_rad.getD i 0 < T_con.getD i 0)) with
  | some contop => T_con.take (contop + 1) ++ T_rad.drop (contop + 1)
  | none => T_rad

namespace HardAdjustment

/-- Method `HardAdjustment.test_profile(T_rad, p, phlev, surface, surfaceT, lp,
timestep)` (convection.py:224-266): build the candidate profile for the trial
surface temperature `surfaceT` and return it with its energy difference
against the radiative profile (exactly 0 for a fixed-temperature surface).
`timestep` is accepted but unused, as in the source. -/
def test_profile (T_rad p phlev : List ℚ) (surface : Surface) (surfaceT : ℚ)
    (lp : List ℚ) (timestep : ℚ) : List ℚ × ℚ :=
  let _ := timestep
  let dp := npDiff phlev
  let T_con := hardCandidate T_rad p phlev surfaceT lp
  match surface with
  | .fixedT _ => (T_con, 0)
  | .variableT sT cs => (T_con, energy_difference T_con T_rad surfaceT sT dp cs)

end HardAdjustment

/-! ## The root-finding loop (convection.py:201-219)

The loop state carries the current candidate profile, the trial surface
temperature, the bracketing surface temperatures and their energy
differences, and the iteration counter. -/

/-- State of the while-loop of `convective_adjustment`. -/
structure LoopState where
  T_con : List ℚ
  surfaceT : ℚ
  surfaceTpos : ℚ
  diffpos : ℚ
  surfaceTneg : ℚ
  diffneg : ℚ
  counter : ℕ

/-- The secant interpolation for the next trial surface temperature
(convection.py:203-204): `surfaceTneg + (surfaceTpos - surfaceTneg) *
(-diffneg) / (-diffneg + diffpos)`.  (In ℚ a zero denominator yields 0;
under the bracket invariant with a positive threshold the denominator is
positive.) -/
def secantT (s : LoopState) : ℚ :=
  s.surfaceTneg + (s.surfaceTpos - s.surfaceTneg) * (-s.diffneg)
    / (-s.diffneg + s.diffpos)

/-- One body of the while-loop (convection.py:203-215): evaluate the test
profile at the secant trial temperature (`tp` is the dispatched
`self.test_profile`, partially applied to everything but the trial surface
temperature) and tighten the positive bound when the energy difference is
positive, the negative bound otherwise; increment the counter. -/
def loopBody (tp : ℚ → List ℚ × ℚ) (s : LoopState) : LoopState :=
  let surfaceT := secantT s
  let r := tp surfaceT
  if 0 < r.2 then
    { T_con := r.1, surfaceT := surfaceT, surfaceTpos := surfaceT,
      diffpos := r.2, surfaceTneg := s.surfaceTneg, diffneg := s.diffneg,
      counter := s.counter + 1 }
  else
    { T_con := r.1, surfaceT := surfaceT, surfaceTpos := s.surfaceTpos,
      diffpos := s.diffpos, surfaceTneg := surfaceT, diffneg := r.2,
      counter := s.counter + 1 }

/-- Iterated application of the loop body: the state of the while-loop of
`convective_adjustment` after `n` iterations (disregarding the exit
condition, which stops further iteration but never changes the state). -/
def iterState (tp : ℚ → List ℚ × ℚ) : ℕ → LoopState → LoopState
  | 0, s => s
  | n + 1, s => iterState tp n (loopBody tp s)

/-- The while-loop `while diffpos >= near_zero and -diffneg >= near_zero`
with its iteration cap (convection.py:201-219), returning the loop's result
together with the number of executed loop bodies.  The `ValueError` raised at
`counter == 100` is the `Except.error`.  Structural recursion is on a fuel
argument; `convective_adjustment` supplies fuel 100, and since the counter
(which starts at 0 and increments once per body) reaches the cap first, the
fuel-exhausted base case is unreachable there — it returns the same error so
that the error behaviour matches the source on all reachable states.  The
cap test is `100 ≤ counter` in place of Python's `counter == 100`; the two
agree on every state reachable from a counter below the cap. -/
def convLoopFuel (nz : ℚ) (tp : ℚ → List ℚ × ℚ) :
    ℕ → LoopState → Except String (List ℚ × ℚ) × ℕ
  | 0, _ => (Except.error "No energy conserving convective profile can be found", 0)
  | fuel + 1, s =>
    if nz ≤ s.diffpos ∧ nz ≤ -s.diffneg then
      let s1 := loopBody tp s
      if 100 ≤ s1.counter then
        (Except.error "No energy conserving convective profile can be found", 1)
      else
        let r := convLoopFuel nz tp fuel s1
        (r.1, r.2 + 1)
    else
      (Except.ok (s.T_con, s.surfaceT), 0)

namespace Convection

/-- Method `HardAdjustment.convective_adjustment` (convection.py:136-222), generic
over the dispatched `self.test_profile` (`tp`, partially applied to
everything but the trial surface temperature) — `RelaxedAdjustment` inherits
this driver unchanged.  Returns the result (candidate profile and surface
temperature, or the convergence-failure error) paired with the number of
executed loop iterations.  The up-front density interpolation
(convection.py:154-159) producing the lapse rate in K/Pa is parametrized
out into `tp`'s construction. -/
def convective_adjustment (tp : ℚ → List ℚ × ℚ) (T_rad : List ℚ)
    (surface : Surface) : Except String (List ℚ × ℚ) × ℕ :=
  let nz := energy_threshold surface
  let surfaceTpos := surface.temperature
  let r0 := tp surfaceTpos
  let T_con := r0.1
  let diffpos := r0.2
  match surface with
  | .fixedT t => (Except.ok (T_con, t), 0)
  | .variableT sT cs =>
    if diffpos < nz then (Except.ok (T_con, sT), 0)
    else
      let surfaceTneg := npMin T_rad
      let diffneg := cs * (surfaceTneg - sT)
      if |diffneg| < nz then (Except.ok (T_con, surfaceTneg), 0)
      else
        let surfaceT := surfaceTneg + (surfaceTpos - surfaceTneg)
          * (-diffneg) / (-diffneg + diffpos)
        convLoopFuel nz tp 100
          { T_con := T_con, surfaceT := surfaceT, surfaceTpos := surfaceTpos,
            diffpos := diffpos, surfaceTneg := surfaceTneg,
            diffneg := diffneg, counter := 0 }

end Convection

namespace HardAdjustment

/-- Method `HardAdjustment.convective_adjustment(p, phlev, T_rad, lapse, surface,
timestep)` (convection.py:136-222) with the lapse rate already converted to
K/Pa (`lp`; the conversion through `typhon.physics.density` and
`scipy.interpolate.interp1d` is an out-of-scope external collaborator). -/
def convective_adjustment (p phlev T_rad lp : List ℚ) (surface : Surface)
    (timestep : ℚ) : Except String (List ℚ × ℚ) × ℕ :=
  Convection.convective_adjustment
    (fun surfaceT => test_profile T_rad p phlev surface surfaceT lp timestep)
    T_rad surface

/-- Method `HardAdjustment.stabilize` (convection.py:116-134): run the convective
adjustment and return the new temperature profile and surface temperature
(which the source then writes back into the atmosphere and surface state;
the convective-top diagnostics are a side output, modelled separately by
`calculate_convective_top`). -/
def stabilize (p phlev T_rad lp : List ℚ) (surface : Surface)
    (timestep : ℚ) : Except String (List ℚ × ℚ) :=
  (convective_adjustment p phlev T_rad lp surface timestep).1

/-- Method `HardAdjustment.calculate_convective_top(T_rad, T_con, p, timestep, lim)`
(convection.py:268-304): the convective heating `(T_con - T_rad)/timestep`
and, when it exceeds `lim` anywhere, the interpolated convective-top
pressure, temperature and fractional index (`none` models the `np.nan`
sentinels). -/
def calculate_convective_top (T_rad T_con p : List ℚ) (timestep lim : ℚ) :
    Option (Except String ℚ × Except String ℚ × Except String ℚ) :=
  let convective_heating := List.zipWith (fun c r => (c - r) / timestep) T_con T_rad
  if npAnyGt convective_heating lim then
    some (interp_variable p convective_heating lim,
          interp_variable T_con convective_heating lim,
          interp_variable ((List.range p.length).map (fun i => (i : ℚ)))
            convective_heating lim)
  else
    none

end HardAdjustment

/-! ## `RelaxedAdjustment` (convection.py:322-389) -/

namespace RelaxedAdjustment

/-- Method `RelaxedAdjustment.get_convective_tau(p)` (convection.py:335-350): the
user-supplied timescale profile when present, otherwise
`tau0 * np.exp(p[0] / p)` with `tau0 = 1/24` day.  `np.exp` is the
parametrized external exponential `expFn`. -/
def get_convective_tau (expFn : ℚ → ℚ) (convective_tau : Option (List ℚ))
    (p : List ℚ) : List ℚ :=
  match convective_tau with
  | some tau => tau
  | none => p.map (fun pi => 1 / 24 * expFn (p.headD 0 / pi))

/-- Method `RelaxedAdjustment.test_profile` (convection.py:352-389): per-level
relaxation fractions `tf = 1 - np.exp(-timestep / tau)` and the blended
candidate `T_con = T_rad*(1 - tf) + tf*(surfaceT - np.cumsum(dp_lapse*lp))`
(the second summand of the blend is the same full-adiabat expression as in
the instantaneous scheme, `hardAdiabat`); the energy difference is computed
as in the instantaneous scheme (exactly 0 for a fixed surface). -/
def test_profile (expFn : ℚ → ℚ) (convective_tau : Option (List ℚ))
    (T_rad p phlev : List ℚ) (surface : Surface) (surfaceT : ℚ)
    (lp : List ℚ) (timestep : ℚ) : List ℚ × ℚ :=
  let dp := npDiff phlev
  let tau := get_convective_tau expFn convective_tau p
  let tf := tau.map (fun t => 1 - expFn (-timestep / t))
  let T_con := zipWith3 (fun tr f a => tr * (1 - f) + f * a)
    T_rad tf (hardAdiabat p phlev surfaceT lp)
  match surface with
  | .fixedT _ => (T_con, 0)
  | .variableT sT cs => (T_con, energy_difference T_con T_rad surfaceT sT dp cs)

/-- Method `RelaxedAdjustment.convective_adjustment`: the driver inherited from
`HardAdjustment`, dispatching to the relaxed `test_profile`. -/
def convective_adjustment (expFn : ℚ → ℚ) (convective_tau : Option (List ℚ))
    (p phlev T_rad lp : List ℚ) (surface : Surface) (timestep : ℚ) :
    Except String (List ℚ × ℚ) × ℕ :=
  Convection.convective_adjustment
    (fun surfaceT =>
      test_profile expFn convective_tau T_rad p phlev surface surfaceT lp timestep)
    T_rad surface

/-- Method `RelaxedAdjustment.stabilize`: inherited from `HardAdjustment`, with the
relaxed `test_profile` dispatched into the driver. -/
def stabilize (expFn : ℚ → ℚ) (convective_tau : Option (List ℚ))
    (p phlev T_rad lp : List ℚ) (surface : Surface) (timestep : ℚ) :
    Except String (List ℚ × ℚ) :=
  (convective_adjustment expFn convective_tau p phlev T_rad lp surface timestep).1

end RelaxedAdjustment

/-! ## `konrad/humidity/__init__.py` -/

/-- The mutable state of a `FixedIWV` humidity policy: the recorded
integrated-water-vapor target (`self.IWV`), `none` when not yet set. -/
structure FixedIWVState where
  IWV : Option ℚ

/-- Python truthiness of `self.IWV` as used in `if not self.IWV:`
(humidity/__init__.py:91): `None` and `0.0` are falsy. -/
def pyFalsy (v : Option ℚ) : Bool :=
  match v with
  | none => true
  | some x => decide (x = 0)

namespace FixedIWV

/-- Method `FixedIWV.rescale_IWV(atmosphere)` (humidity/__init__.py:88-95): read the
current integrated water vapor; when no target is set record the current
value as the target (with a warning); then rescale the vapor field by the
ratio of the target to the current value.  Returns the updated policy state
and the updated vapor profile. -/
def rescale_IWV (st : FixedIWVState) (h2o plev : List ℚ) :
    FixedIWVState × List ℚ :=
  let IWV_curr := integrate_vmr h2o plev
  let st1 := if pyFalsy st.IWV then { IWV := some IWV_curr : FixedIWVState } else st
  let target := match st1.IWV with
    | some v => v
    | none => 0
  (st1, h2o.map (fun x => x * target / IWV_curr))

end FixedIWV

namespace ChangeRHwithp

/-- Constructor `ChangeRHwithp.__init__` (humidity/__init__.py:118-123).  Its guard
condition `if f_T:` references the name `f_T`, which is not in scope in this
constructor (its parameter is `f_p`; per the spec, `f_T` "is not in scope" —
the star-imported helper modules, which are outside `src/`, do not define
it).  Evaluating the constructor therefore raises `NameError` for every
input, before any fallback default can be substituted.  The intended
fallback value (`f_p`, or the constant-zero function when absent) is what
the sibling `ChangeRHwithT.__init__` computes for its own parameter. -/
def init (f_p : Option (ℚ → ℚ)) : Except String (ℚ → ℚ) :=
  let _ := f_p
  Except.error "NameError: name f_T is not defined"

end ChangeRHwithp

/-! ## Helper lemmas about the root-finding loop -/

/-- Each loop body increments the iteration counter by exactly one. -/
theorem loopBody_counter (tp : ℚ → List ℚ × ℚ) (s : LoopState) :
    (loopBody tp s).counter = s.counter + 1 := by
  simp only [loopBody]
  split <;> rfl

/-- The loop body keeps the positive bound's energy difference nonnegative
and the negative bound's nonpositive. -/
theorem loopBody_preserves_bracket (tp : ℚ → List ℚ × ℚ) (s : LoopState)
    (h1 : 0 ≤ s.diffpos) (h2 : s.diffneg ≤ 0) :
    0 ≤ (loopBody tp s).diffpos ∧ (loopBody tp s).diffneg ≤ 0 := by
  simp only [loopBody]
  by_cases h : 0 < (tp (secantT s)).2
  · simp only [if_pos h]
    exact ⟨le_of_lt h, h2⟩
  · simp only [if_neg h]
    exact ⟨h1, le_of_not_lt h⟩

/-- The bracket invariant holds after any number of loop iterations. -/
theorem iterState_bracket (tp : ℚ → List ℚ × ℚ) :
    ∀ (n : ℕ) (s : LoopState), 0 ≤ s.diffpos → s.diffneg ≤ 0 →
      (iterState tp n s).diffneg ≤ 0 ∧ 0 ≤ (iterState tp n s).diffpos := by
  intro n
  induction n with
  | zero => intro s h1 h2; exact ⟨h2, h1⟩
  | succ m ih =>
    intro s h1 h2
    have hb := loopBody_preserves_bracket tp s h1 h2
    exact ih (loopBody tp s) hb.1 hb.2

/-- The loop executes at most `100 - counter` bodies. -/
theorem convLoopFuel_count (nz : ℚ) (tp : ℚ → List ℚ × ℚ) :
    ∀ (fuel : ℕ) (s : LoopState), s.counter ≤ 99 →
      (convLoopFuel nz tp fuel s).2 + s.counter ≤ 100 := by
  intro fuel
  induction fuel with
  | zero => intro s h; simp only [convLoopFuel]; omega
  | succ m ih =>
    intro s h
    simp only [convLoopFuel]
    by_cases hc : nz ≤ s.diffpos ∧ nz ≤ -s.diffneg
    · simp only [if_pos hc]
      by_cases hcap : 100 ≤ (loopBody tp s).counter
      · simp only [if_pos hcap]; omega
      · simp only [if_neg hcap]
        have hcnt := loopBody_counter tp s
        have := ih (loopBody tp s) (by omega)
        omega
    · simp only [if_neg hc]; omega

/-- The loop executes at most 100 bodies when started below the cap. -/
theorem convLoopFuel_count_le (nz : ℚ) (tp : ℚ → List ℚ × ℚ) (fuel : ℕ)
    (s : LoopState) (h : s.counter ≤ 99) :
    (convLoopFuel nz tp fuel s).2 ≤ 100 := by
  have := convLoopFuel_count nz tp fuel s h
  omega

/-- The loop either succeeds or fails with the convergence-failure message. -/
theorem convLoopFuel_result_shape (nz : ℚ) (tp : ℚ → List ℚ × ℚ) :
    ∀ (fuel : ℕ) (s : LoopState),
      (∃ r, (convLoopFuel nz tp fuel s).1 = Except.ok r) ∨
        (convLoopFuel nz tp fuel s).1
          = Except.error "No energy conserving convective profile can be found" := by
  intro fuel
  induction fuel with
  | zero => intro s; right; rfl
  | succ m ih =>
    intro s
    simp only [convLoopFuel]
    by_cases hc : nz ≤ s.diffpos ∧ nz ≤ -s.diffneg
    · simp only [if_pos hc]
      by_cases hcap : 100 ≤ (loopBody tp s).counter
      · simp only [if_pos hcap]; right; trivial
      · simp only [if_neg hcap]
        exact ih (loopBody tp s)
    · simp only [if_neg hc]
      exact Or.inl ⟨(s.T_con, s.surfaceT), rfl⟩

/-- Unfolding lemma: the loop exits (returning the current candidate and
trial surface temperature) when the loop condition fails. -/
theorem convLoopFuel_exit (nz : ℚ) (tp : ℚ → List ℚ × ℚ) (fuel : ℕ)
    (s : LoopState) (h : ¬(nz ≤ s.diffpos ∧ nz ≤ -s.diffneg)) :
    convLoopFuel nz tp (fuel + 1) s = (Except.ok (s.T_con, s.surfaceT), 0) := by
  simp only [convLoopFuel, if_neg h]

/-- Unfolding lemma: one uncapped iteration of the loop. -/
theorem convLoopFuel_step (nz : ℚ) (tp : ℚ → List ℚ × ℚ) (fuel : ℕ)
    (s : LoopState) (h : nz ≤ s.diffpos ∧ nz ≤ -s.diffneg)
    (hcap : ¬ 100 ≤ (loopBody tp s).counter) :
    convLoopFuel nz tp (fuel + 1) s
      = ((convLoopFuel nz tp fuel (loopBody tp s)).1,
          (convLoopFuel nz tp fuel (loopBody tp s)).2 + 1) := by
  simp only [convLoopFuel, if_pos h, if_neg hcap]

/-- The loop body evaluates the test profile at the secant trial
temperature and stores its results. -/
theorem loopBody_surfaceT (tp : ℚ → List ℚ × ℚ) (s : LoopState) :
    (loopBody tp s).surfaceT = secantT s := by
  simp only [loopBody]; split <;> rfl

/-- The candidate stored by the loop body is the test profile's candidate at
the stored trial temperature. -/
theorem loopBody_T_con (tp : ℚ → List ℚ × ℚ) (s : LoopState) :
    (loopBody tp s).T_con = (tp (secantT s)).1 := by
  simp only [loopBody]; split <;> rfl

/-- The loop body tightens exactly one bound: the positive one when the new
energy difference is positive, the negative one otherwise. -/
theorem loopBody_diff_cases (tp : ℚ → List ℚ × ℚ) (s : LoopState) :
    (0 < (tp (secantT s)).2 ∧ (loopBody tp s).diffpos = (tp (secantT s)).2
        ∧ (loopBody tp s).diffneg = s.diffneg)
    ∨ ((tp (secantT s)).2 ≤ 0 ∧ (loopBody tp s).diffneg = (tp (secantT s)).2
        ∧ (loopBody tp s).diffpos = s.diffpos) := by
  by_cases h : 0 < (tp (secantT s)).2
  · left
    refine ⟨h, ?_, ?_⟩ <;> simp only [loopBody, if_pos h]
  · right
    refine ⟨le_of_not_lt h, ?_, ?_⟩ <;> simp only [loopBody, if_neg h]

/-- Whenever the loop returns normally from a state in which the loop
condition holds (so the body runs at least once more), the returned
candidate is the test profile of the returned surface temperature and the
energy difference there has magnitude below the threshold. -/
theorem convLoopFuel_converged (nz : ℚ) (tp : ℚ → List ℚ × ℚ) :
    ∀ (fuel : ℕ) (s : LoopState) (T : List ℚ) (Ts : ℚ),
      nz ≤ s.diffpos → nz ≤ -s.diffneg →
      (convLoopFuel nz tp fuel s).1 = Except.ok (T, Ts) →
      T = (tp Ts).1 ∧ |(tp Ts).2| < nz := by
  intro fuel
  induction fuel with
  | zero =>
    intro s T Ts h1 h2 hres
    exact absurd hres (by simp [convLoopFuel])
  | succ m ih =>
    intro s T Ts h1 h2 hres
    rw [convLoopFuel] at hres
    rw [if_pos ⟨h1, h2⟩] at hres
    by_cases hcap : 100 ≤ (loopBody tp s).counter
    · rw [if_pos hcap] at hres
      exact absurd hres (by simp)
    · rw [if_neg hcap] at hres
      by_cases hc1 : nz ≤ (loopBody tp s).diffpos ∧ nz ≤ -(loopBody tp s).diffneg
      · exact ih (loopBody tp s) T Ts hc1.1 hc1.2 hres
      · cases m with
        | zero => exact absurd hres (by simp [convLoopFuel])
        | succ k =>
          rw [convLoopFuel_exit nz tp k (loopBody tp s) hc1] at hres
          have hT : T = (loopBody tp s).T_con ∧ Ts = (loopBody tp s).surfaceT := by
            have := hres
            simp only [Except.ok.injEq, Prod.mk.injEq] at this
            exact ⟨this.1.symm, this.2.symm⟩
          rcases loopBody_diff_cases tp s with ⟨hd, hdp, hdn⟩ | ⟨hd, hdn, hdp⟩
          · -- positive bound tightened; exit forced diffpos below threshold
            have hlt : (tp (secantT s)).2 < nz := by
              by_contra hge
              exact hc1 ⟨by rw [hdp]; exact le_of_not_lt hge, by rw [hdn]; exact h2⟩
            refine ⟨?_, ?_⟩
            · rw [hT.1, hT.2, loopBody_T_con, loopBody_surfaceT]
            · rw [hT.2, loopBody_surfaceT, abs_of_pos hd]
              exact hlt
          · -- negative bound tightened; exit forced -diffneg below threshold
            have hlt : -(tp (secantT s)).2 < nz := by
              by_contra hge
              exact hc1 ⟨by rw [hdp]; exact h1, by rw [hdn]; exact le_of_not_lt hge⟩
            refine ⟨?_, ?_⟩
            · rw [hT.1, hT.2, loopBody_T_con, loopBody_surfaceT]
            · rw [hT.2, loopBody_surfaceT, abs_of_nonpos hd]
              exact hlt

/-- Helper `lastSuch` finds nothing exactly when no index below the bound
satisfies the predicate. -/
theorem lastSuch_eq_none (n : ℕ) (p : ℕ → Bool)
    (h : ∀ i, i < n → p i = false) : lastSuch n p = none := by
  induction n with
  | zero => rfl
  | succ m ih =>
    have hm := h m (Nat.lt_succ_self m)
    simp only [lastSuch, hm, Bool.false_eq_true, if_false]
    exact ih (fun i hi => h i (Nat.lt_succ_of_lt hi))

/-- A hit of `lastSuch` satisfies the predicate, lies below the bound, and
is the largest such index. -/
theorem lastSuch_some_spec (p : ℕ → Bool) :
    ∀ (n K : ℕ), lastSuch n p = some K →
      p K = true ∧ K < n ∧ ∀ j, K < j → j < n → p j = false := by
  intro n
  induction n with
  | zero => intro K h; exact absurd h (by simp [lastSuch])
  | succ m ih =>
    intro K h
    by_cases hm : p m = true
    · simp only [lastSuch, hm, if_true, Option.some.injEq] at h
      subst h
      exact ⟨hm, Nat.lt_succ_self m, fun j hj1 hj2 => absurd hj1 (by omega)⟩
    · have hm' : p m = false := by
        cases hpm : p m with
        | true => exact absurd hpm hm
        | false => rfl
      simp only [lastSuch, hm', Bool.false_eq_true, if_false] at h
      obtain ⟨h1, h2, h3⟩ := ih K h
      refine ⟨h1, Nat.lt_succ_of_lt h2, fun j hj1 hj2 => ?_⟩
      rcases Nat.lt_succ_iff_lt_or_eq.mp hj2 with hj | hj
      · exact h3 j hj1 hj
      · exact hj ▸ hm'

/-- The energy difference of a profile with itself at an unchanged surface
temperature vanishes. -/
theorem energy_difference_self (T : List ℚ) (s : ℚ) (dp : List ℚ) (c : ℚ) :
    energy_difference T T s s dp c = 0 := by
  have hz : ∀ (n : ℕ) (d : List ℚ),
      (List.zipWith (fun t dd => isobaric_mass_heat_capacity
        / earth_standard_gravity * t * dd)
        (List.replicate n 0) d).sum = 0 := by
    intro n
    induction n with
    | zero => intro d; simp
    | succ m ih =>
      intro d
      cases d with
      | nil => simp
      | cons y ys => simp [List.replicate, List.zipWith, ih ys]
  simp [energy_difference, hz]

/-- C2.  The root-finding loop in `HardAdjustment.convective_adjustment`
never executes more than 100 iterations, and the only error the call can
produce is the fatal "no energy-conserving profile found" `ValueError`,
surfaced directly to the caller (the adjustment is a single deterministic
call — there is no retry path). -/
theorem hard_adjustment_iteration_cap (p phlev T_rad lp : List ℚ)
    (surface : Surface) (timestep : ℚ) :
    (HardAdjustment.convective_adjustment p phlev T_rad lp surface timestep).2 ≤ 100
    ∧ ((∃ r, (HardAdjustment.convective_adjustment p phlev T_rad lp surface timestep).1
          = Except.ok r)
      ∨ (HardAdjustment.convective_adjustment p phlev T_rad lp surface timestep).1
          = Except.error "No energy conserving convective profile can be found") := by
  unfold HardAdjustment.convective_adjustment Convection.convective_adjustment
  cases surface with
  | fixedT t =>
    exact ⟨by norm_num, Or.inl ⟨_, rfl⟩⟩
  | variableT sT cs =>
    simp only []
    by_cases h1 : (HardAdjustment.test_profile T_rad p phlev (Surface.variableT sT cs)
        (Surface.temperature (Surface.variableT sT cs)) lp timestep).2
        < energy_threshold (Surface.variableT sT cs)
    · simp only [if_pos h1]
      exact ⟨by norm_num, Or.inl ⟨_, rfl⟩⟩
    · simp only [if_neg h1]
      by_cases h2 : |cs * (npMin T_rad - sT)| < energy_threshold (Surface.variableT sT cs)
      · simp only [if_pos h2]
        exact ⟨by norm_num, Or.inl ⟨_, rfl⟩⟩
      · simp only [if_neg h2]
        constructor
        · refine convLoopFuel_count_le _ _ 100 _ ?_
          norm_num
        · exact convLoopFuel_result_shape _ _ 100 _

/-- C3.  Bracket invariant of the bisection loop: from any loop state whose
positive-bound energy difference is at least the threshold and whose
negative-bound energy difference is nonpositive (the bounds established
before the loop), every iteration of the loop body keeps
`diffneg ≤ 0 ≤ diffpos`. -/
theorem bisection_bracket_invariant (tp : ℚ → List ℚ × ℚ) (nz : ℚ)
    (s : LoopState) (hnz : 0 ≤ nz) (hpos : nz ≤ s.diffpos)
    (hneg : s.diffneg ≤ 0) (n : ℕ) :
    (iterState tp n s).diffneg ≤ 0 ∧ 0 ≤ (iterState tp n s).diffpos :=
  iterState_bracket tp n s (le_trans hnz hpos) hneg

/-- C1 (amended).  For a variable-heat-capacity surface, whenever the
bisection loop of `HardAdjustment.convective_adjustment` is actually
entered (the initial bounds satisfy the loop condition, so at least one
iteration runs) and the call returns normally, the returned profile is the
test profile of the returned surface temperature and the energy imbalance
there has magnitude below the threshold `heat_capacity / 1e13`.
(The original claim, without the entered-loop proviso, fails: when the
pre-loop bound `diffneg` is positive the loop exits after zero iterations
and returns an unverified secant guess — see the counterexample.) -/
theorem hard_adjustment_converged_energy_balance
    (p phlev T_rad lp : List ℚ) (sT cs timestep : ℚ) (T : List ℚ) (Ts : ℚ)
    (hcs : 0 ≤ cs)
    (h1 : energy_threshold (Surface.variableT sT cs)
      ≤ (HardAdjustment.test_profile T_rad p phlev (Surface.variableT sT cs)
          sT lp timestep).2)
    (h2 : energy_threshold (Surface.variableT sT cs)
      ≤ -(cs * (npMin T_rad - sT)))
    (hres : (HardAdjustment.convective_adjustment p phlev T_rad lp
        (Surface.variableT sT cs) timestep).1 = Except.ok (T, Ts)) :
    T = (HardAdjustment.test_profile T_rad p phlev (Surface.variableT sT cs)
        Ts lp timestep).1
    ∧ |(HardAdjustment.test_profile T_rad p phlev (Surface.variableT sT cs)
        Ts lp timestep).2| < energy_threshold (Surface.variableT sT cs) := by
  have hnz : (0:ℚ) ≤ energy_threshold (Surface.variableT sT cs) := by
    simp only [energy_threshold]
    positivity
  unfold HardAdjustment.convective_adjustment Convection.convective_adjustment at hres
  simp only [Surface.temperature] at hres
  rw [if_neg (not_lt.mpr h1)] at hres
  have habs : ¬ |cs * (npMin T_rad - sT)| < energy_threshold (Surface.variableT sT cs) := by
    have hle : cs * (npMin T_rad - sT) ≤ 0 := by nlinarith [h2]
    rw [abs_of_nonpos hle]
    exact not_lt.mpr h2
  rw [if_neg habs] at hres
  exact convLoopFuel_converged (energy_threshold (Surface.variableT sT cs))
    (fun surfaceT => HardAdjustment.test_profile T_rad p phlev
      (Surface.variableT sT cs) surfaceT lp timestep)
    100 _ T Ts h1 h2 hres

/-- C1 counterexample.  A concrete call with a variable-heat-capacity
surface (temperature 290 K, heat capacity 1 J/K, radiative profile [300] K,
lapse 1 K/Pa) that returns normally without taking the no-instability or
exact-lower-bound early returns, yet whose returned candidate profile and
surface temperature leave an energy imbalance far above the threshold: the
current surface temperature lies below the coldest radiative temperature,
so `diffneg > 0` and the loop exits after zero iterations, returning the
unverified pre-loop secant guess (the source's own "dirty workaround"
comment, convection.py:192-196).  The first two conjuncts rule out the
early returns, the third is the returned value, and the last two exhibit
the violated bound (for the energy difference of the returned pair and for
the test profile at the returned surface temperature alike). -/
theorem hard_adjustment_energy_balance_counterexample :
    energy_threshold (Surface.variableT 290 1)
      ≤ (HardAdjustment.test_profile [300] [900] [950, 850]
          (Surface.variableT 290 1) 290 [1] 1).2
    ∧ energy_threshold (Surface.variableT 290 1) ≤ |(1:ℚ) * (npMin [300] - 290)|
    ∧ (HardAdjustment.convective_adjustment [900] [950, 850] [300] [1]
        (Surface.variableT 290 1) 1).1
        = Except.ok ([340], 2408343121430 / 8027803867)
    ∧ energy_threshold (Surface.variableT 290 1)
        < |energy_difference [340] [300] (2408343121430 / 8027803867) 290
            (npDiff [950, 850]) 1|
    ∧ energy_threshold (Surface.variableT 290 1)
        < |(HardAdjustment.test_profile [300] [900] [950, 850]
            (Surface.variableT 290 1) (2408343121430 / 8027803867) [1] 1).2| := by
  refine ⟨?_, ?_, ?_, ?_, ?_⟩
  · norm_num [HardAdjustment.test_profile, hardCandidate, hardAdiabat, dpLapse,
      npDiff, cumsum, energy_difference, isobaric_mass_heat_capacity,
      earth_standard_gravity, lastSuch, List.scanl, energy_threshold]
  · norm_num [npMin, energy_threshold]
  · unfold HardAdjustment.convective_adjustment Convection.convective_adjustment
    simp only [Surface.temperature]
    rw [if_neg (by norm_num [HardAdjustment.test_profile, hardCandidate, hardAdiabat,
      dpLapse, npDiff, cumsum, energy_difference, isobaric_mass_heat_capacity,
      earth_standard_gravity, lastSuch, List.scanl, energy_threshold])]
    rw [if_neg (by norm_num [npMin, energy_threshold])]
    rw [show (100:ℕ) = 99 + 1 from rfl]
    rw [convLoopFuel_exit _ _ _ _ (by norm_num [npMin, energy_threshold,
      HardAdjustment.test_profile, hardCandidate, hardAdiabat, dpLapse, npDiff,
      cumsum, energy_difference, isobaric_mass_heat_capacity,
      earth_standard_gravity, lastSuch, List.scanl])]
    norm_num [npMin, HardAdjustment.test_profile, hardCandidate, hardAdiabat,
      dpLapse, npDiff, cumsum, energy_difference, isobaric_mass_heat_capacity,
      earth_standard_gravity, lastSuch, List.scanl]
  · exact lt_of_lt_of_le
      (by norm_num [energy_difference, npDiff, isobaric_mass_heat_capacity,
        earth_standard_gravity, energy_threshold])
      (le_abs_self _)
  · exact lt_of_lt_of_le
      (by norm_num [HardAdjustment.test_profile, hardCandidate, hardAdiabat, dpLapse,
        npDiff, cumsum, energy_difference, isobaric_mass_heat_capacity,
        earth_standard_gravity, lastSuch, List.scanl, energy_threshold])
      (le_abs_self _)

/-- Witness for the amended C1 at a concrete converging call: surface at
310 K with heat capacity 1e13 J/K, radiative profile [300] K; the loop runs
one iteration and converges. -/
theorem hard_adjustment_converged_energy_balance_witness :
    (0:ℚ) ≤ 10 ^ 13
    ∧ energy_threshold (Surface.variableT 310 (10 ^ 13))
        ≤ (HardAdjustment.test_profile [300] [900] [950, 850]
            (Surface.variableT 310 (10 ^ 13)) 310 [1] 1).2
    ∧ energy_threshold (Surface.variableT 310 (10 ^ 13))
        ≤ -(10 ^ 13 * (npMin [300] - 310))
    ∧ (HardAdjustment.convective_adjustment [900] [950, 850] [300] [1]
        (Surface.variableT 310 (10 ^ 13)) 1).1
        = Except.ok ([353039402107350 / 980665006021], 304006151806300 / 980665006021)
    ∧ ([353039402107350 / 980665006021]
        = (HardAdjustment.test_profile [300] [900] [950, 850]
            (Surface.variableT 310 (10 ^ 13)) (304006151806300 / 980665006021) [1] 1).1
      ∧ |(HardAdjustment.test_profile [300] [900] [950, 850]
            (Surface.variableT 310 (10 ^ 13)) (304006151806300 / 980665006021) [1] 1).2|
          < energy_threshold (Surface.variableT 310 (10 ^ 13))) := by
  have hconv : (HardAdjustment.convective_adjustment [900] [950, 850] [300] [1]
      (Surface.variableT 310 (10 ^ 13)) 1).1
      = Except.ok ([353039402107350 / 980665006021], 304006151806300 / 980665006021) := by
    unfold HardAdjustment.convective_adjustment Convection.convective_adjustment
    simp only [Surface.temperature]
    rw [if_neg (by norm_num [HardAdjustment.test_profile, hardCandidate, hardAdiabat,
      dpLapse, npDiff, cumsum, energy_difference, isobaric_mass_heat_capacity,
      earth_standard_gravity, lastSuch, List.scanl, energy_threshold])]
    rw [if_neg (by norm_num [npMin, energy_threshold])]
    rw [show (100:ℕ) = 99 + 1 from rfl]
    rw [convLoopFuel_step _ _ _ _
      (by constructor <;> norm_num [npMin, energy_threshold,
        HardAdjustment.test_profile, hardCandidate, hardAdiabat, dpLapse, npDiff,
        cumsum, energy_difference, isobaric_mass_heat_capacity,
        earth_standard_gravity, lastSuch, List.scanl])
      (by rw [loopBody_counter]; norm_num)]
    rw [show (99:ℕ) = 98 + 1 from rfl]
    rw [convLoopFuel_exit _ _ _ _ (by
      norm_num [loopBody, secantT, npMin, energy_threshold,
        HardAdjustment.test_profile, hardCandidate, hardAdiabat, dpLapse, npDiff,
        cumsum, energy_difference, isobaric_mass_heat_capacity,
        earth_standard_gravity, lastSuch, List.scanl])]
    norm_num [loopBody, secantT, npMin, HardAdjustment.test_profile,
      hardCandidate, hardAdiabat, dpLapse, npDiff, cumsum, energy_difference,
      isobaric_mass_heat_capacity, earth_standard_gravity, lastSuch, List.scanl]
  refine ⟨by norm_num, ?_, ?_, hconv, ?_⟩
  · norm_num [HardAdjustment.test_profile, hardCandidate, hardAdiabat, dpLapse,
      npDiff, cumsum, energy_difference, isobaric_mass_heat_capacity,
      earth_standard_gravity, lastSuch, List.scanl, energy_threshold]
  · norm_num [npMin, energy_threshold]
  · exact hard_adjustment_converged_energy_balance [900] [950, 850] [300] [1]
      310 (10 ^ 13) 1 [353039402107350 / 980665006021] (304006151806300 / 980665006021)
      (by norm_num)
      (by norm_num [HardAdjustment.test_profile, hardCandidate, hardAdiabat, dpLapse,
        npDiff, cumsum, energy_difference, isobaric_mass_heat_capacity,
        earth_standard_gravity, lastSuch, List.scanl, energy_threshold])
      (by norm_num [npMin, energy_threshold])
      hconv

/-- C4 (amended).  For any radiative temperature profile that is
monotonically stable — the adiabat built from the current surface
temperature nowhere exceeds the radiative profile — `stabilize` with the
instantaneous (`HardAdjustment`) strategy returns the input temperature
profile and the input surface temperature unchanged, both for a
variable surface with positive heat capacity and for a fixed-temperature
surface.  (The original claim also asserted this for the relaxed strategy,
which is false: the relaxed blend moves the profile toward the adiabat even
where the adiabat is strictly colder — see the counterexample.) -/
theorem hard_stabilize_stable_profile_unchanged
    (p phlev T_rad lp : List ℚ) (sT cs timestep : ℚ) (hcs : 0 < cs)
    (hstable : ∀ i, i < min (hardAdiabat p phlev sT lp).length T_rad.length →
      (hardAdiabat p phlev sT lp).getD i 0 ≤ T_rad.getD i 0) :
    HardAdjustment.stabilize p phlev T_rad lp (Surface.variableT sT cs) timestep
      = Except.ok (T_rad, sT)
    ∧ HardAdjustment.stabilize p phlev T_rad lp (Surface.fixedT sT) timestep
      = Except.ok (T_rad, sT) := by
  have hcand : hardCandidate T_rad p phlev sT lp = T_rad := by
    have hnone := lastSuch_eq_none
      (min (hardAdiabat p phlev sT lp).length T_rad.length)
      (fun i => decide (T_rad.getD i 0 < (hardAdiabat p phlev sT lp).getD i 0))
      (fun i hi => by
        simp only [decide_eq_false_iff_not, not_lt]
        exact hstable i hi)
    simp only [hardCandidate, hnone]
  constructor
  · unfold HardAdjustment.stabilize HardAdjustment.convective_adjustment
      Convection.convective_adjustment
    simp only [Surface.temperature]
    have htp : HardAdjustment.test_profile T_rad p phlev (Surface.variableT sT cs)
        sT lp timestep = (T_rad, 0) := by
      unfold HardAdjustment.test_profile
      simp only [hcand, energy_difference_self]
    rw [htp]
    rw [if_pos (by
      simp only [energy_threshold]
      positivity)]
  · unfold HardAdjustment.stabilize HardAdjustment.convective_adjustment
      Convection.convective_adjustment
    simp only [Surface.temperature]
    have htp : HardAdjustment.test_profile T_rad p phlev (Surface.fixedT sT)
        sT lp timestep = (T_rad, 0) := by
      unfold HardAdjustment.test_profile
      simp only [hcand]
    rw [htp]

/-- C4 counterexample.  A concrete monotonically stable input (radiative
profile [300] K, adiabat from the 290 K surface equal to [290] K, so the
adiabat nowhere exceeds the radiative profile) on which the relaxed
strategy does not return the input profile: with relaxation fraction 1/2
(`expFn` constant 1/2, timescale profile [1] day, timestep 1 day) the
returned profile is [295] ≠ [300], although the surface temperature is
returned unchanged. -/
theorem relaxed_stabilize_stable_profile_counterexample :
    hardAdiabat [900] [950, 850] 290 [0] = [290]
    ∧ ((290:ℚ) ≤ 300)
    ∧ RelaxedAdjustment.stabilize (fun _ => 1 / 2) (some [1]) [900] [950, 850]
        [300] [0] (Surface.variableT 290 (10 ^ 13)) 1 = Except.ok ([295], 290)
    ∧ ([(295:ℚ)] ≠ [(300:ℚ)]) := by
  refine ⟨?_, by norm_num, ?_, by simp⟩
  · norm_num [hardAdiabat, dpLapse, cumsum, npDiff, List.scanl]
  · unfold RelaxedAdjustment.stabilize RelaxedAdjustment.convective_adjustment
      Convection.convective_adjustment
    simp only [Surface.temperature]
    have htp : RelaxedAdjustment.test_profile (fun _ => 1 / 2) (some [1])
        [300] [900] [950, 850] (Surface.variableT 290 (10 ^ 13)) 290 [0] 1
        = ([295], energy_difference [295] [300] 290 290 (npDiff [950, 850]) (10 ^ 13)) := by
      norm_num [RelaxedAdjustment.test_profile, RelaxedAdjustment.get_convective_tau,
        zipWith3, hardAdiabat, dpLapse, cumsum, npDiff, List.scanl]
    rw [htp]
    rw [if_pos (by norm_num [energy_difference, npDiff, isobaric_mass_heat_capacity,
      earth_standard_gravity, energy_threshold])]

/-- Witness for the amended C4 at a concrete stable input. -/
theorem hard_stabilize_stable_profile_unchanged_witness :
    (0:ℚ) < 10 ^ 13
    ∧ HardAdjustment.stabilize [900] [950, 850] [300] [0]
        (Surface.variableT 290 (10 ^ 13)) 1 = Except.ok ([300], 290)
    ∧ HardAdjustment.stabilize [900] [950, 850] [300] [0]
        (Surface.fixedT 290) 1 = Except.ok ([300], 290) := by
  have h := hard_stabilize_stable_profile_unchanged [900] [950, 850] [300] [0]
    290 (10 ^ 13) 1 (by norm_num)
    (by
      intro i hi
      have hi0 : i = 0 := by
        simp [hardAdiabat, dpLapse, cumsum, npDiff, List.scanl] at hi
        omega
      subst hi0
      norm_num [hardAdiabat, dpLapse, cumsum, npDiff, List.scanl])
  exact ⟨by norm_num, h.1, h.2⟩

/-- A miss of `lastSuch` means no index below the bound satisfies the
predicate. -/
theorem lastSuch_none_spec (p : ℕ → Bool) :
    ∀ n, lastSuch n p = none → ∀ j, j < n → p j = false := by
  intro n
  induction n with
  | zero => intro _ j hj; omega
  | succ m ih =>
    intro h j hj
    by_cases hm : p m = true
    · simp [lastSuch, hm] at h
    · have hm' : p m = false := by
        cases hpm : p m with
        | true => exact absurd hpm hm
        | false => rfl
      simp only [lastSuch, hm', Bool.false_eq_true, if_false] at h
      rcases Nat.lt_succ_iff_lt_or_eq.mp hj with hj' | hj'
      · exact ih h j hj'
      · exact hj' ▸ hm'

/-- Reading inside the kept prefix of the spliced candidate. -/
theorem getD_splice_left (A B : List ℚ) (k i : ℕ) (hik : i < k + 1)
    (hkA : k + 1 ≤ A.length) :
    (A.take (k + 1) ++ B.drop (k + 1)).getD i 0 = A.getD i 0 := by
  rw [List.getD_eq_getElem?_getD, List.getD_eq_getElem?_getD,
    List.getElem?_append]
  rw [if_pos (by rw [List.length_take, min_eq_left hkA]; omega)]
  rw [List.getElem?_take, if_pos hik]

/-- Reading inside the kept suffix of the spliced candidate. -/
theorem getD_splice_right (A B : List ℚ) (k i : ℕ) (hik : k + 1 ≤ i)
    (hkA : k + 1 ≤ A.length) :
    (A.take (k + 1) ++ B.drop (k + 1)).getD i 0 = B.getD i 0 := by
  rw [List.getD_eq_getElem?_getD, List.getD_eq_getElem?_getD,
    List.getElem?_append]
  rw [if_neg (by rw [List.length_take, min_eq_left hkA]; omega)]
  rw [List.getElem?_drop]
  rw [List.length_take, min_eq_left hkA]
  congr 2
  omega

/-- The candidate component of `HardAdjustment.test_profile` is
`hardCandidate`, for every kind of surface. -/
theorem hard_test_profile_fst (T_rad p phlev : List ℚ) (surface : Surface)
    (surfaceT : ℚ) (lp : List ℚ) (timestep : ℚ) :
    (HardAdjustment.test_profile T_rad p phlev surface surfaceT lp timestep).1
      = hardCandidate T_rad p phlev surfaceT lp := by
  unfold HardAdjustment.test_profile
  cases surface <;> rfl

/-- C7.  For a fixed-temperature surface, `convective_adjustment` returns
the surface temperature exactly equal to the input surface temperature and
the candidate profile built from the current surface temperature, and
`test_profile` returns an energy imbalance of exactly 0 at every trial
surface temperature. -/
theorem fixed_surface_adjustment (p phlev T_rad lp : List ℚ) (t timestep : ℚ) :
    (HardAdjustment.convective_adjustment p phlev T_rad lp
        (Surface.fixedT t) timestep).1
      = Except.ok (hardCandidate T_rad p phlev t lp, t)
    ∧ ∀ surfaceT : ℚ,
        (HardAdjustment.test_profile T_rad p phlev (Surface.fixedT t)
          surfaceT lp timestep).2 = 0 := by
  constructor
  · unfold HardAdjustment.convective_adjustment Convection.convective_adjustment
    simp only [Surface.temperature]
    rw [hard_test_profile_fst]
  · intro surfaceT
    unfold HardAdjustment.test_profile
    rfl

/-- C5.  `HardAdjustment.test_profile` builds its candidate from the adiabat
`hardAdiabat` (the downward integral of the pressure-thickness-weighted
lapse rates from the trial surface temperature): at every index that lies
at or below some index where the adiabat exceeds the radiative profile
(equivalently, at or below the highest such index) the candidate equals the
adiabat, and at every index above all such indices — in particular at every
index when no index is convectively unstable — it equals the radiative
profile. -/
theorem hard_test_profile_candidate_structure
    (T_rad p phlev : List ℚ) (surface : Surface) (surfaceT : ℚ) (lp : List ℚ)
    (timestep : ℚ)
    (hlen : (hardAdiabat p phlev surfaceT lp).length = T_rad.length) :
    ∀ i, i < T_rad.length →
      ((∃ j, j < T_rad.length ∧ i ≤ j
          ∧ T_rad.getD j 0 < (hardAdiabat p phlev surfaceT lp).getD j 0) →
        (HardAdjustment.test_profile T_rad p phlev surface surfaceT lp
          timestep).1.getD i 0 = (hardAdiabat p phlev surfaceT lp).getD i 0)
      ∧ ((∀ j, j < T_rad.length → i ≤ j →
          ¬ T_rad.getD j 0 < (hardAdiabat p phlev surfaceT lp).getD j 0) →
        (HardAdjustment.test_profile T_rad p phlev surface surfaceT lp
          timestep).1.getD i 0 = T_rad.getD i 0) := by
  intro i hi
  rw [hard_test_profile_fst]
  have hmin : min (hardAdiabat p phlev surfaceT lp).length T_rad.length
      = T_rad.length := by omega
  cases hK : lastSuch (min (hardAdiabat p phlev surfaceT lp).length T_rad.length)
      (fun j => decide (T_rad.getD j 0
        < (hardAdiabat p phlev surfaceT lp).getD j 0)) with
  | none =>
    have hcand : hardCandidate T_rad p phlev surfaceT lp = T_rad := by
      simp only [hardCandidate, hK]
    rw [hcand]
    have hnone := lastSuch_none_spec _ _ hK
    constructor
    · rintro ⟨j, hj1, _, hj3⟩
      have := hnone j (by omega)
      simp only [decide_eq_false_iff_not] at this
      exact absurd hj3 this
    · intro _
      rfl
  | some K =>
    have hcand : hardCandidate T_rad p phlev surfaceT lp
        = (hardAdiabat p phlev surfaceT lp).take (K + 1) ++ T_rad.drop (K + 1) := by
      simp only [hardCandidate, hK]
    rw [hcand]
    obtain ⟨hpK, hKn, hmax⟩ := lastSuch_some_spec _ _ _ hK
    rw [hmin] at hKn
    have hexK : T_rad.getD K 0 < (hardAdiabat p phlev surfaceT lp).getD K 0 := by
      simpa using hpK
    by_cases hiK : i ≤ K
    · constructor
      · intro _
        exact getD_splice_left _ _ _ _ (by omega) (by omega)
      · intro hall
        exact absurd hexK (hall K hKn hiK)
    · constructor
      · rintro ⟨j, hj1, hj2, hj3⟩
        have := hmax j (by omega) (by omega)
        simp only [decide_eq_false_iff_not] at this
        exact absurd hj3 this
      · intro _
        exact getD_splice_right _ _ _ _ (by omega) (by omega)

/-- Witness for C5 at a concrete input: radiative profile [300, 300] K with
adiabat [310, 290] K from a 300 K trial surface temperature; the convective
top is index 0, so the candidate is [310, 300]. -/
theorem hard_test_profile_candidate_structure_witness :
    (hardAdiabat [900, 800] [950, 850, 750] 300 [1/5, -1/5]).length
        = ([300, 300] : List ℚ).length
    ∧ (HardAdjustment.test_profile [300, 300] [900, 800] [950, 850, 750]
        (Surface.variableT 280 1) 300 [1/5, -1/5] 1).1.getD 0 0
        = (hardAdiabat [900, 800] [950, 850, 750] 300 [1/5, -1/5]).getD 0 0
    ∧ (HardAdjustment.test_profile [300, 300] [900, 800] [950, 850, 750]
        (Surface.variableT 280 1) 300 [1/5, -1/5] 1).1.getD 1 0
        = ([300, 300] : List ℚ).getD 1 0 := by
  have hlen : (hardAdiabat [900, 800] [950, 850, 750] 300 [1/5, -1/5]).length
      = ([300, 300] : List ℚ).length := by
    norm_num [hardAdiabat, dpLapse, cumsum, npDiff, List.scanl]
  have h0 := hard_test_profile_candidate_structure [300, 300] [900, 800]
    [950, 850, 750] (Surface.variableT 280 1) 300 [1/5, -1/5] 1 hlen 0
    (by norm_num)
  have h1 := hard_test_profile_candidate_structure [300, 300] [900, 800]
    [950, 850, 750] (Surface.variableT 280 1) 300 [1/5, -1/5] 1 hlen 1
    (by norm_num)
  refine ⟨hlen, ?_, ?_⟩
  · exact h0.1 ⟨0, by norm_num, by norm_num,
      by norm_num [hardAdiabat, dpLapse, cumsum, npDiff, List.scanl]⟩
  · refine h1.2 ?_
    intro j hj1 hj2
    have hj : j = 1 := by
      simp only [List.length_cons, List.length_nil] at hj1
      omega
    subst hj
    norm_num [hardAdiabat, dpLapse, cumsum, npDiff, List.scanl]

/-- Pointwise description of `zipWith3` within the common length. -/
theorem zipWith3_getD (f : ℚ → ℚ → ℚ → ℚ) :
    ∀ (as bs cs : List ℚ) (i : ℕ), i < as.length → i < bs.length →
      i < cs.length →
      (zipWith3 f as bs cs).getD i 0
        = f (as.getD i 0) (bs.getD i 0) (cs.getD i 0) := by
  intro as
  induction as with
  | nil => intro bs cs i h1 _ _; exact absurd h1 (by simp)
  | cons a as ih =>
    intro bs cs i h1 h2 h3
    cases bs with
    | nil => exact absurd h2 (by simp)
    | cons b bs =>
      cases cs with
      | nil => exact absurd h3 (by simp)
      | cons c cs =>
        cases i with
        | zero => rfl
        | succ n =>
          simp only [zipWith3, List.getD_cons_succ]
          exact ih bs cs n (by simpa using h1) (by simpa using h2)
            (by simpa using h3)

/-- Pointwise description of `List.map` within the length. -/
theorem getD_map_lt (fn : ℚ → ℚ) (l : List ℚ) (i : ℕ) (h : i < l.length) :
    (l.map fn).getD i 0 = fn (l.getD i 0) := by
  rw [List.getD_eq_getElem?_getD, List.getD_eq_getElem?_getD, List.getElem?_map]
  cases hx : l[i]? with
  | none =>
    have := List.getElem?_eq_none_iff.mp hx
    omega
  | some x => rfl

/-- The candidate component of `RelaxedAdjustment.test_profile` is the
per-level blend, for every kind of surface. -/
theorem relaxed_test_profile_fst (expFn : ℚ → ℚ) (ctau : Option (List ℚ))
    (T_rad p phlev : List ℚ) (surface : Surface) (surfaceT : ℚ) (lp : List ℚ)
    (timestep : ℚ) :
    (RelaxedAdjustment.test_profile expFn ctau T_rad p phlev surface surfaceT
        lp timestep).1
      = zipWith3 (fun tr f a => tr * (1 - f) + f * a) T_rad
          ((RelaxedAdjustment.get_convective_tau expFn ctau p).map
            (fun t => 1 - expFn (-timestep / t)))
          (hardAdiabat p phlev surfaceT lp) := by
  unfold RelaxedAdjustment.test_profile
  cases surface <;> rfl

/-- C6.  `RelaxedAdjustment.test_profile` computes per-level relaxation
fractions `tf = 1 - exp(-timestep/τ)` from the convective timescale profile
and blends the radiative profile with the full adiabat per level,
`T_con = T_rad·(1-tf) + tf·(surfaceT - cumsum(dp_lapse·lp))`, with no
convective-top search (the blend equation holds at every index).  The
second and third conjuncts restate the blend as deviations, from which the
degenerate cases follow exactly: where `tf = 0` the candidate equals the
radiative profile, and where `tf = 1` it equals the full adiabat. -/
theorem relaxed_test_profile_blend (expFn : ℚ → ℚ) (ctau : Option (List ℚ))
    (T_rad p phlev : List ℚ) (surface : Surface) (surfaceT : ℚ) (lp : List ℚ)
    (timestep : ℚ)
    (htau : (RelaxedAdjustment.get_convective_tau expFn ctau p).length
      = T_rad.length)
    (hA : (hardAdiabat p phlev surfaceT lp).length = T_rad.length) :
    ∀ i, i < T_rad.length →
      ((RelaxedAdjustment.test_profile expFn ctau T_rad p phlev surface
          surfaceT lp timestep).1.getD i 0
        = T_rad.getD i 0 * (1 - (1 - expFn (-timestep
            / (RelaxedAdjustment.get_convective_tau expFn ctau p).getD i 0)))
          + (1 - expFn (-timestep
            / (RelaxedAdjustment.get_convective_tau expFn ctau p).getD i 0))
            * (hardAdiabat p phlev surfaceT lp).getD i 0)
      ∧ ((RelaxedAdjustment.test_profile expFn ctau T_rad p phlev surface
          surfaceT lp timestep).1.getD i 0 - T_rad.getD i 0
        = (1 - expFn (-timestep
            / (RelaxedAdjustment.get_convective_tau expFn ctau p).getD i 0))
          * ((hardAdiabat p phlev surfaceT lp).getD i 0 - T_rad.getD i 0))
      ∧ ((RelaxedAdjustment.test_profile expFn ctau T_rad p phlev surface
          surfaceT lp timestep).1.getD i 0
            - (hardAdiabat p phlev surfaceT lp).getD i 0
        = expFn (-timestep
            / (RelaxedAdjustment.get_convective_tau expFn ctau p).getD i 0)
          * (T_rad.getD i 0 - (hardAdiabat p phlev surfaceT lp).getD i 0)) := by
  intro i hi
  rw [relaxed_test_profile_fst]
  rw [zipWith3_getD _ _ _ _ i hi (by rw [List.length_map]; omega) (by omega)]
  rw [getD_map_lt _ _ _ (by omega)]
  refine ⟨rfl, by ring, by ring⟩

/-- Witness for C6 at a concrete input with relaxation fraction 0
(`expFn` constant 1, timescale profile [5] days). -/
theorem relaxed_test_profile_blend_witness :
    (RelaxedAdjustment.get_convective_tau (fun _ => 1) (some [5]) [900]).length
        = ([300] : List ℚ).length
    ∧ (hardAdiabat [900] [950, 850] 290 [2]).length = ([300] : List ℚ).length
    ∧ ((RelaxedAdjustment.test_profile (fun _ => 1) (some [5]) [300] [900]
          [950, 850] (Surface.variableT 290 1) 290 [2] 1).1.getD 0 0
        = ([300] : List ℚ).getD 0 0 * (1 - (1 - (fun _ : ℚ => (1:ℚ)) (-1
            / (RelaxedAdjustment.get_convective_tau (fun _ => 1) (some [5])
                [900]).getD 0 0)))
          + (1 - (fun _ : ℚ => (1:ℚ)) (-1
            / (RelaxedAdjustment.get_convective_tau (fun _ => 1) (some [5])
                [900]).getD 0 0))
            * (hardAdiabat [900] [950, 850] 290 [2]).getD 0 0)
    ∧ ((RelaxedAdjustment.test_profile (fun _ => 1) (some [5]) [300] [900]
          [950, 850] (Surface.variableT 290 1) 290 [2] 1).1.getD 0 0
            - ([300] : List ℚ).getD 0 0
        = (1 - (fun _ : ℚ => (1:ℚ)) (-1
            / (RelaxedAdjustment.get_convective_tau (fun _ => 1) (some [5])
                [900]).getD 0 0))
          * ((hardAdiabat [900] [950, 850] 290 [2]).getD 0 0
              - ([300] : List ℚ).getD 0 0)) := by
  have h := relaxed_test_profile_blend (fun _ => 1) (some [5]) [300] [900]
    [950, 850] (Surface.variableT 290 1) 290 [2] 1
    (by norm_num [RelaxedAdjustment.get_convective_tau])
    (by norm_num [hardAdiabat, dpLapse, cumsum, npDiff, List.scanl])
    0 (by norm_num)
  exact ⟨by norm_num [RelaxedAdjustment.get_convective_tau],
    by norm_num [hardAdiabat, dpLapse, cumsum, npDiff, List.scanl],
    h.1, h.2.1⟩

/-- The pressure-weighted vertical integral is linear in the vapor field:
scaling the field scales the integral. -/
theorem integrate_vmr_map_mul (c : ℚ) :
    ∀ (h plev : List ℚ),
      integrate_vmr (h.map (fun x => x * c)) plev = c * integrate_vmr h plev := by
  have key : ∀ (h w : List ℚ),
      (List.zipWith (· * ·) (h.map (fun x => x * c)) w).sum
        = c * (List.zipWith (· * ·) h w).sum := by
    intro h
    induction h with
    | nil => intro w; simp
    | cons x xs ih =>
      intro w
      cases w with
      | nil => simp
      | cons y ys =>
        simp only [List.map_cons, List.zipWith_cons_cons, List.sum_cons, ih ys]
        ring
  intro h plev
  unfold integrate_vmr
  exact key h (npDiff plev)

/-- C8.  Calling `FixedIWV.rescale_IWV` twice in succession on the same
atmosphere (the second call reading the vapor field written by the first,
with no external change in between, and the integral nonzero) yields
exactly the same vapor field — hence the same integrated water vapor —
after the second call as after the first (the second call's rescaling
factor is 1; in exact arithmetic the round trip is an identity, a fortiori
within floating-point tolerance); and on a first invocation with no target
set the current integrated water vapor is recorded as the target. -/
theorem rescale_IWV_round_trip (st : FixedIWVState) (h2o plev : List ℚ)
    (h0 : integrate_vmr h2o plev ≠ 0) :
    ((FixedIWV.rescale_IWV (FixedIWV.rescale_IWV st h2o plev).1
        (FixedIWV.rescale_IWV st h2o plev).2 plev).2
      = (FixedIWV.rescale_IWV st h2o plev).2)
    ∧ (integrate_vmr (FixedIWV.rescale_IWV (FixedIWV.rescale_IWV st h2o plev).1
        (FixedIWV.rescale_IWV st h2o plev).2 plev).2 plev
      = integrate_vmr (FixedIWV.rescale_IWV st h2o plev).2 plev)
    ∧ (st.IWV = none →
        (FixedIWV.rescale_IWV st h2o plev).1.IWV
          = some (integrate_vmr h2o plev)) := by
  have main : ∀ (t : ℚ), t ≠ 0 →
      FixedIWV.rescale_IWV { IWV := some t } (h2o.map (fun x => x * (t / integrate_vmr h2o plev))) plev
        = ({ IWV := some t }, h2o.map (fun x => x * (t / integrate_vmr h2o plev))) := by
    intro t ht
    have hcurr : integrate_vmr (h2o.map (fun x => x * (t / integrate_vmr h2o plev))) plev = t := by
      rw [integrate_vmr_map_mul]
      field_simp
    unfold FixedIWV.rescale_IWV
    rw [hcurr]
    simp only [pyFalsy, decide_eq_true_eq]
    rw [if_neg (by simpa using ht)]
    have hone : (fun x : ℚ => x * t / t) = fun x : ℚ => x * (t / t) := by
      funext x; rw [mul_div_assoc]
    have : (h2o.map (fun x => x * (t / integrate_vmr h2o plev))).map (fun x => x * t / t)
        = h2o.map (fun x => x * (t / integrate_vmr h2o plev)) := by
      rw [hone]
      rw [div_self ht]
      simp
    rw [this]
  have hshape : ∀ (t : ℚ), pyFalsy st.IWV = false → st.IWV = some t →
      FixedIWV.rescale_IWV st h2o plev
        = (st, h2o.map (fun x => x * (t / integrate_vmr h2o plev))) := by
    intro t hf hsome
    unfold FixedIWV.rescale_IWV
    rw [hf]
    simp only [if_false, Bool.false_eq_true]
    rw [hsome]
    simp only [mul_div_assoc]
  by_cases hfalsy : pyFalsy st.IWV = true
  · -- unset (or zero) target: the first call records the current integral
    have hfirst : FixedIWV.rescale_IWV st h2o plev
        = ({ IWV := some (integrate_vmr h2o plev) },
            h2o.map (fun x => x * (integrate_vmr h2o plev / integrate_vmr h2o plev))) := by
      unfold FixedIWV.rescale_IWV
      rw [hfalsy]
      simp only [if_true]
      simp only [mul_div_assoc]
    have h2 := main (integrate_vmr h2o plev) h0
    refine ⟨?_, ?_, ?_⟩
    · rw [hfirst]
      rw [h2]
    · rw [hfirst, h2]
    · intro _
      rw [hfirst]
  · -- a nonzero target t is already set
    have hf : pyFalsy st.IWV = false := by
      cases hpf : pyFalsy st.IWV with
      | true => exact absurd hpf hfalsy
      | false => rfl
    obtain ⟨t, hsome, ht⟩ : ∃ t, st.IWV = some t ∧ t ≠ 0 := by
      cases hst : st.IWV with
      | none => rw [hst] at hf; simp [pyFalsy] at hf
      | some v =>
        refine ⟨v, rfl, ?_⟩
        rw [hst] at hf
        simpa [pyFalsy] using hf
    have hfirst := hshape t hf hsome
    have hst1 : st = { IWV := some t : FixedIWVState } := by
      cases st
      simp only [FixedIWVState.mk.injEq]
      exact hsome
    refine ⟨?_, ?_, ?_⟩
    · rw [hfirst]
      rw [hst1] at hfirst ⊢
      rw [main t ht]
    · rw [hfirst, hst1, main t ht]
    · intro hnone
      rw [hnone] at hsome
      exact absurd hsome (by simp)

/-- Witness for C8 at a concrete atmosphere (vapor [2], pressure levels
[900, 800], integral -200 ≠ 0). -/
theorem rescale_IWV_round_trip_witness :
    integrate_vmr [2] [900, 800] ≠ 0
    ∧ ((FixedIWV.rescale_IWV (FixedIWV.rescale_IWV ⟨none⟩ [2] [900, 800]).1
        (FixedIWV.rescale_IWV ⟨none⟩ [2] [900, 800]).2 [900, 800]).2
      = (FixedIWV.rescale_IWV ⟨none⟩ [2] [900, 800]).2)
    ∧ ((FixedIWV.rescale_IWV ⟨none⟩ [2] [900, 800]).1.IWV
      = some (integrate_vmr [2] [900, 800])) := by
  have hne : integrate_vmr [2] [900, 800] ≠ 0 := by
    norm_num [integrate_vmr, npDiff]
  have h := rescale_IWV_round_trip ⟨none⟩ [2] [900, 800] hne
  exact ⟨hne, h.1, h.2.2 rfl⟩

/-- C9.  The claim that every humidity-policy operation degrades a missing
required parameter to a warning plus an inferred default is the documented
design (and what `FixedIWV.rescale_IWV` and `ChangeRHwithT.__init__` do),
but `ChangeRHwithp.__init__` instead raises `NameError` on every call —
including a call with `f_p` missing — because its guard references the
out-of-scope name `f_T` instead of `f_p`: the code, not the claim, is at
fault.  This theorem evaluates the constructor at the failing input. -/
theorem changeRHwithp_init_name_error :
    ChangeRHwithp.init none
      = Except.error "NameError: name f_T is not defined" := rfl

/-- Library `findIdx?` finds nothing in an all-`false` boolean list, from any start
index. -/
theorem findIdx?_bool_eq_none :
    ∀ (l : List Bool) (i : ℕ), (∀ x ∈ l, x = false) →
      List.findIdx? (fun b => b) l i = none := by
  intro l
  induction l with
  | nil => intro i _; rfl
  | cons x xs ih =>
    intro i h
    have hx : x = false := h x (List.mem_cons_self x xs)
    rw [List.findIdx?_cons, hx]
    simp only [Bool.false_eq_true, if_false]
    exact ih (i + 1) (fun y hy => h y (List.mem_cons_of_mem x hy))

/-- numpy `np.argmax` of a boolean array whose first entry is `true` is 0. -/
theorem npArgmax_cons_true (l : List Bool) : npArgmax (true :: l) = 0 := by
  simp [npArgmax, List.findIdx?_cons]

/-- numpy `np.argmax` of an all-`false` boolean array is 0 (numpy's convention
when no entry satisfies the condition). -/
theorem npArgmax_all_false (l : List Bool) (h : ∀ x ∈ l, x = false) :
    npArgmax l = 0 := by
  simp [npArgmax, findIdx?_bool_eq_none l 0 h]

/-- C10.  When the convective heating exceeds `lim` at index 0 and never
falls back below `lim` at any later index, `interp_variable` computes a
bracketing index of 0, so its reads at `contop_index - 1 = -1` wrap around
(Python negative indexing) to the last array element: it hands `interp1d`
the last and first elements of the heating and variable arrays rather than
a genuinely adjacent pair straddling `lim`.  The caller's guard
(`np.any(convective_heating > lim)`, third conjunct) is satisfied by such
inputs — it does not check that the heating ever falls back below `lim`. -/
theorem interp_variable_wraparound (c lim : ℚ) (t var : List ℚ)
    (h0 : lim < c) (hrest : ∀ x ∈ t, lim ≤ x) :
    contopIndex (c :: t) lim = 0
    ∧ interp_variable var (c :: t) lim
        = interp1d_eval (pyGet (c :: t) (-1)) (pyGet (c :: t) 0)
            (pyGet var (-1)) (pyGet var 0) lim
    ∧ npAnyGt (c :: t) lim = true := by
  have hallf : ∀ x ∈ (c :: t).map (fun y => decide (y < lim)), x = false := by
    intro x hx
    rw [List.mem_map] at hx
    obtain ⟨y, hy, rfl⟩ := hx
    rcases List.mem_cons.mp hy with hyc | hyt
    · subst hyc
      simp only [decide_eq_false_iff_not, not_lt]
      exact le_of_lt h0
    · simp only [decide_eq_false_iff_not, not_lt]
      exact hrest y hyt
  have hpi : npArgmax ((c :: t).map (fun x => decide (lim < x))) = 0 := by
    rw [List.map_cons]
    rw [show decide (lim < c) = true by simpa using h0]
    exact npArgmax_cons_true _
  have hct : contopIndex (c :: t) lim = 0 := by
    unfold contopIndex
    rw [hpi]
    simp only [List.drop_zero]
    rw [npArgmax_all_false _ hallf]
  refine ⟨hct, ?_, ?_⟩
  · unfold interp_variable
    rw [hct]
    norm_num
  · simp [npAnyGt, List.any_cons, h0]

/-- Witness for C10 at a concrete input: heating [5, 3, 4] K/day with
threshold 2 K/day — above threshold everywhere, so the bracketing index is
0 and the reads wrap to the last element. -/
theorem interp_variable_wraparound_witness :
    contopIndex [5, 3, 4] 2 = 0
    ∧ interp_variable [10, 20, 30] [5, 3, 4] 2
        = interp1d_eval (pyGet [5, 3, 4] (-1)) (pyGet [5, 3, 4] 0)
            (pyGet [10, 20, 30] (-1)) (pyGet [10, 20, 30] 0) 2
    ∧ npAnyGt [5, 3, 4] 2 = true := by
  refine interp_variable_wraparound 5 2 [3, 4] [10, 20, 30] (by norm_num) ?_
  intro x hx
  rcases List.mem_cons.mp hx with h | h
  · rw [h]; norm_num
  · rcases List.mem_cons.mp h with h' | h'
    · rw [h']; norm_num
    · exact absurd h' (by simp)

/-- Witness for C3 at a concrete loop state and test-profile function. -/
theorem bisection_bracket_invariant_witness :
    (0:ℚ) ≤ 2 ∧ (2:ℚ) ≤ 5 ∧ (-1:ℚ) ≤ 0 ∧
      ((iterState (fun _ => ([], 1)) 3 ⟨[], 0, 0, 5, 0, -1, 0⟩).diffneg ≤ 0
        ∧ 0 ≤ (iterState (fun _ => ([], 1)) 3 ⟨[], 0, 0, 5, 0, -1, 0⟩).diffpos) :=
  ⟨by norm_num, by norm_num, by norm_num,
    bisection_bracket_invariant (fun _ => ([], 1)) 2 ⟨[], 0, 0, 5, 0, -1, 0⟩
      (by norm_num) (by norm_num) (by norm_num) 3⟩

end Konrad
